import Mathlib

/-!
Shallow embedding of the three diagnostic scripts of the repository
(`benchmark_inference.py`, `debug_video_processing.py`,
`test_ffmpeg_extraction.py`).

External effects (subprocess execution, the filesystem, `glob`, console
output) are modelled explicitly: each script-level function is a pure Lean
function from an *environment* (the outcomes the external world would
produce) and a filesystem state to a trace of observable events, a new
filesystem state and a return value.  Console prints are trace events
tagged by constructors; byte-level checks are functions on byte lists.
-/

namespace VggtScripts

/-- Bytes of a file, as natural numbers < 256. -/
abbrev Byte := Nat

/-- `subAt s pat i`: the byte string `pat` occurs in `s` at offset `i`. -/
def subAt (s pat : List Byte) (i : Nat) : Bool :=
  ((s.drop i).take pat.length) == pat

/-- Python's `pat in s` test on byte strings: `pat` occurs somewhere in `s`. -/
def bytesContain (s pat : List Byte) : Bool :=
  (List.range (s.length + 1)).any (subAt s pat)

/-- Python's `<` on strings, on the underlying character lists
(lexicographic by code point, a proper prefix is smaller). -/
def pyCharsLt : List Char → List Char → Bool
  | [], [] => false
  | [], _ :: _ => true
  | _ :: _, [] => false
  | a :: as, b :: bs => a < b || (a == b && pyCharsLt as bs)

/-- Python's `<` on strings. -/
def pyStrLt (a b : String) : Bool := pyCharsLt a.data b.data

/-- Python's `>=` on strings (`sort(reverse=True)` orders by this). -/
def pyStrGe (a b : String) : Bool := !pyStrLt a b

/-- Python's `str.startswith`. -/
def pyStartsWith (s pat : String) : Bool := pat.data.isPrefixOf s.data

/-- A frame image file written by an extraction command, identified by the
method index baked into its name (`method3_...png` ↦ `3`; the plain
`%06d.png` pattern of `test_ffmpeg_extraction.py` ↦ `0`) and its sequence
number. -/
abbrev FrameFile := Nat × Nat

/-- The slice of the filesystem the scripts create and delete: for each
directory name, `none` when the directory does not exist, otherwise the
frame files it holds. -/
abbrev FS := String → Option (List FrameFile)

/-- Update one directory of the filesystem. -/
def fsSet (fs : FS) (d : String) (v : Option (List FrameFile)) : FS :=
  fun x => if x = d then v else fs x

/-- `if os.path.exists(d): shutil.rmtree(d)` — the cleanup idiom all the
scripts use. -/
def removeIfPresent (fs : FS) (d : String) : FS :=
  if (fs d).isSome then fsSet fs d none else fs

/-- A Python exception escaping a script-level function
(`sys.exit` raises `SystemExit`). -/
inductive PyExc where
  | runtimeError
  | systemExit (code : Int)
  deriving DecidableEq

/-- How a script's top-level function ends: a plain return, `sys.exit`,
or an uncaught exception. -/
inductive ScriptResult where
  | normal
  | exited (code : Int)
  | uncaught (e : PyExc)
  deriving DecidableEq

/-- Outcome of one `subprocess.run` invocation: the process completed with
an exit code (`check=True` turns a non-zero code into
`CalledProcessError`), or the 60 s timeout fired (`TimeoutExpired`), or
some other exception was raised (e.g. `FileNotFoundError` when the
executable is missing). -/
inductive ExecStatus where
  | completed (exitCode : Nat)
  | timedOut
  | errored
  deriving DecidableEq

/-- Outcome of one `ffprobe` invocation run with `check=True`:
success, `CalledProcessError`, or `FileNotFoundError`. -/
inductive ProbeStatus where
  | ok
  | calledProcessError
  | fileNotFound
  deriving DecidableEq

/-- External behaviour of the six `ffmpeg` invocations of
`test_ffmpeg_methods` on one fixed video: for method index `i` (1-based),
the status of the invocation and the number of `method{i}_*.png` frame
files it writes into the output directory before it ends (a failing or
timed-out run may still have written frames). -/
structure FfmpegEnv where
  status : Nat → ExecStatus
  frames : Nat → Nat

/-- External behaviour of one video file as the debug script sees it. -/
structure VideoEnv where
  fileExists : Bool
  fileSize : Nat
  probe1 : ProbeStatus
  probe2 : ProbeStatus
  /-- Bytes of the file; `none` when opening it raises. -/
  content : Option (List Byte)
  ffmpeg : FfmpegEnv

/-- Observable events of `debug_video_processing.py` and
`test_ffmpeg_extraction.py`: console messages (one constructor per
`print` site, carrying the data interpolated into the message) and the
external actions (file reads, subprocess invocations, `glob` calls). -/
inductive Ev where
  -- analyze_video_properties
  | analyzeStart (path : String)
  | videoNotFound (path : String)
  | fileSizeMsg (path : String) (size : Nat)
  | probeRun (path : String) (k : Nat)
  | videoInfo (path : String)
  | ffprobeFailed (path : String)
  | ffprobeMissing (path : String)
  -- check_file_structure
  | checkHeader
  | fread (off len : Nat)
  | hexDump (bs : List Byte)
  | asciiDump (bs : List Byte)
  | mp4SigMsg
  | moovHeaderMsg (found : Bool)
  | moovFooterMsg (found : Bool)
  | mdatMsg (found : Bool)
  | readErrorMsg
  -- test_ffmpeg_methods
  | methodHeader (i : Nat) (name : String)
  | cmdRun (dir : String) (i : Nat)
  | methodSuccess (i : Nat) (numFrames : Nat)
  | methodNoFrames (i : Nat)
  | methodFailed (i : Nat) (exitCode : Nat)
  | methodTimeout (i : Nat)
  | methodUnexpectedError (i : Nat)
  | summarySuccessMsg (names : List String)
  | summaryNoneMsg
  -- main / test_with_working_video
  | workingIntro
  | workingOkMsg (names : List String)
  | workingFailedMsg
  | noWorkingVideoMsg
  | mainIntro
  | criticalMsg
  | globbed (d : String)
  | foundUpload (p : String)
  | noUploadsMsg
  | problemIntro (p : String)
  | solutionMsg (names : List String)
  | noSolutionMsg
  -- test_ffmpeg_extraction.py
  | extNoVideoMsg
  | extTestingMsg
  | extSuccessMsg (numFrames : Nat)
  | extPerfMsg (cls : Nat)
  | extFailedMsg (exitCode : Nat)
  | extUnexpectedMsg
  deriving DecidableEq

namespace DebugVideo

/-- `analyze_video_properties(video_path)` of `debug_video_processing.py`:
prints the header, checks existence, runs two `ffprobe` invocations inside
one `try` whose handlers catch `CalledProcessError` and
`FileNotFoundError`; returns `True` only when both succeed. -/
def analyze_video_properties (env : VideoEnv) (path : String) :
    List Ev × Bool :=
  if !env.fileExists then
    ([.analyzeStart path, .videoNotFound path], false)
  else
    let pre := [Ev.analyzeStart path, Ev.fileSizeMsg path env.fileSize]
    match env.probe1 with
    | .ok =>
      match env.probe2 with
      | .ok =>
        (pre ++ [.probeRun path 1, .probeRun path 2, .videoInfo path], true)
      | .calledProcessError =>
        (pre ++ [.probeRun path 1, .probeRun path 2, .ffprobeFailed path], false)
      | .fileNotFound =>
        (pre ++ [.probeRun path 1, .probeRun path 2, .ffprobeMissing path], false)
    | .calledProcessError =>
      (pre ++ [.probeRun path 1, .ffprobeFailed path], false)
    | .fileNotFound =>
      (pre ++ [.probeRun path 1, .ffprobeMissing path], false)

/-- The bytes of the ASCII string `moov`. -/
def moovBytes : List Byte := [0x6d, 0x6f, 0x6f, 0x76]

/-- The bytes of the ASCII string `mdat`. -/
def mdatBytes : List Byte := [0x6d, 0x64, 0x61, 0x74]

/-- `check_file_structure(video_path)` of `debug_video_processing.py`:
reads the first 1024 bytes, dumps the first 64, then runs the four byte
checks in sequence, printing a message for each; the whole body is inside
a `try` whose `except Exception` prints an error message.  `content` is
the file's bytes, `none` when opening the file raises. -/
def check_file_structure (content : Option (List Byte)) : List Ev :=
  Ev.checkHeader ::
    match content with
    | none => [.readErrorMsg]
    | some c =>
      let header := c.take 1024
      [Ev.fread 0 1024, Ev.hexDump (header.take 64), Ev.asciiDump (header.take 64)]
      ++ (if header.take 3 == [0, 0, 0] then [Ev.mp4SigMsg] else [])
      ++ [Ev.moovHeaderMsg (bytesContain header moovBytes)]
      ++ [Ev.fread (c.length - 1024) 1024,
          Ev.moovFooterMsg (bytesContain (c.drop (c.length - 1024)) moovBytes)]
      ++ [Ev.fread 0 8192,
          Ev.mdatMsg (bytesContain (c.take 8192) mdatBytes)]

/-- The `name` fields of the six entries of the `methods` list of
`test_ffmpeg_methods`, in their listed order. -/
def methodNames : List String :=
  ["Standard extraction",
   "GoPro optimized (genpts+ignore_index)",
   "Error tolerance (ignore_err)",
   "Force MP4 demuxer",
   "Concat demuxer workaround",
   "Basic with verbose output"]

/-- Delete every `method{i}_*.png` file (the `glob` + `os.remove` loop
before each attempt). -/
def clearMethodFiles (files : List FrameFile) (i : Nat) : List FrameFile :=
  files.filter (fun f => f.1 != i)

/-- One iteration of the method loop of `test_ffmpeg_methods` for 1-based
method index `i`: clear leftover `method{i}_*.png` files, run the command
(the invocation writes `env.frames i` frame files whatever its status),
then dispatch on the outcome exactly as the `try`/`except` does.  Returns
the trace, the new filesystem, and the name appended to
`successful_methods` (if any). -/
def runStep (env : FfmpegEnv) (dir : String) (fs : FS) (i : Nat) :
    List Ev × FS × Option String :=
  let files0 := (fs dir).getD []
  let files1 := clearMethodFiles files0 i
  let filesAfter := files1 ++ (List.range (env.frames i)).map (fun k => (i, k))
  let fs1 := fsSet fs dir (some filesAfter)
  let hdr := [Ev.methodHeader i (methodNames.getD (i - 1) ""), Ev.cmdRun dir i]
  match env.status i with
  | .completed code =>
    if code = 0 then
      let extracted := filesAfter.filter (fun f => f.1 == i)
      if extracted.length > 0 then
        (hdr ++ [.methodSuccess i extracted.length], fs1,
         some (methodNames.getD (i - 1) ""))
      else
        (hdr ++ [.methodNoFrames i], fs1, none)
    else
      (hdr ++ [.methodFailed i code], fs1, none)
  | .timedOut => (hdr ++ [.methodTimeout i], fs1, none)
  | .errored => (hdr ++ [.methodUnexpectedError i], fs1, none)

/-- The `for i, method in enumerate(methods, 1)` loop over the given
1-based method indices, threading the filesystem and accumulating the
trace and `successful_methods`. -/
def runMethods (env : FfmpegEnv) (dir : String) :
    List Nat → FS → List Ev × FS × List String
  | [], fs => ([], fs, [])
  | i :: rest, fs =>
    let s := runStep env dir fs i
    let t := runMethods env dir rest s.2.1
    (s.1 ++ t.1, t.2.1, s.2.2.toList ++ t.2.2)

/-- `test_ffmpeg_methods(video_path, output_dir)`: delete the output
directory if it exists and recreate it empty, try the six methods in
order, print the summary, and return `successful_methods`. -/
def test_ffmpeg_methods (env : FfmpegEnv) (dir : String) (fs : FS) :
    List Ev × FS × List String :=
  let r := runMethods env dir [1, 2, 3, 4, 5, 6] (fsSet fs dir (some []))
  (r.1 ++ [if r.2.2.isEmpty then Ev.summaryNoneMsg
           else Ev.summarySuccessMsg r.2.2],
   r.2.1, r.2.2)

/-- Path of the known working video (`examples/videos/kitchen.mp4`). -/
def workingVideoPath : String := "examples/videos/kitchen.mp4"

/-- Output directory of the working-video test. -/
def workingOutputDir : String := "debug_working_output"

/-- Output directory of the problem-video test. -/
def problemOutputDir : String := "debug_problem_output"

/-- The `input_images_` marker a directory name must start with. -/
def inputImagesMarker : String := "input_images_"

/-- External behaviour of one run of `debug_video_processing.py`:
the two videos as the script sees them, the entries `os.listdir('.')`
returns, and for each entry the results the two recursive `glob` calls
return for it (`**/*.MP4` and `**/*.mp4`, in `glob`'s order). -/
structure DebugEnv where
  workingVideoExists : Bool
  working : VideoEnv
  listdir : List String
  globMP4 : String → List String
  globmp4 : String → List String
  problem : VideoEnv

/-- Stable insertion of `x` into a list descending under Python's string
order (before the first element not `>=` it). -/
def insertDesc (x : String) : List String → List String
  | [] => [x]
  | y :: ys => if pyStrGe x y then x :: y :: ys else y :: insertDesc x ys

/-- `upload_dirs.sort(reverse=True)`: sort descending under Python's
string comparison.  (A descending permutation is unique here because
strings comparing equal under `pyStrGe` both ways are equal, so stable
insertion sort yields exactly Python's result.) -/
def sortDesc : List String → List String
  | [] => []
  | x :: xs => insertDesc x (sortDesc xs)

/-- The `for upload_dir in upload_dirs[:3]` loop body: `glob` the
directory, and on the first directory with matches take the first match
and break. -/
def searchDirs (g : String → List String) :
    List String → List Ev × Option String
  | [] => ([], none)
  | d :: rest =>
    match g d with
    | [] =>
      let t := searchDirs g rest
      (Ev.globbed d :: t.1, t.2)
    | f :: _ => ([Ev.globbed d, Ev.foundUpload f], some f)

/-- Lines 245–255 of `main`: filter `os.listdir('.')` to entries starting
with `input_images_`, sort descending, and scan the first three with the
two recursive globs (`*.MP4` results extended with `*.mp4` results). -/
def findUploadedVideo (env : DebugEnv) : List Ev × Option String :=
  let dirs := sortDesc (env.listdir.filter (fun d => pyStartsWith d inputImagesMarker))
  searchDirs (fun d => env.globMP4 d ++ env.globmp4 d) (dirs.take 3)

/-- `test_with_working_video()`: if the working video exists, analyze it,
check its structure, run the six methods into `debug_working_output`,
report, delete the output directory if present, and return whether any
method succeeded; otherwise print a warning and return `True`. -/
def test_with_working_video (env : DebugEnv) (fs : FS) :
    List Ev × FS × Bool :=
  if env.workingVideoExists then
    let a := analyze_video_properties env.working workingVideoPath
    let c := check_file_structure env.working.content
    let m := test_ffmpeg_methods env.working.ffmpeg workingOutputDir fs
    let report := if m.2.2.isEmpty then [Ev.workingFailedMsg]
                  else [Ev.workingOkMsg m.2.2]
    (Ev.workingIntro :: a.1 ++ c ++ m.1 ++ report,
     removeIfPresent m.2.1 workingOutputDir, m.2.2.length > 0)
  else
    ([.noWorkingVideoMsg], fs, true)

/-- Lines 262–285 of `main`: the header for the found problem video, its
analysis, then — only when the analysis succeeded — the structure check
and the six extraction methods into `debug_problem_output` with the
solution report, and finally the remove-if-present cleanup of
`debug_problem_output` (which runs whether or not the analysis
succeeded). -/
def problemPhase (env : DebugEnv) (p : String) (fs : FS) : List Ev × FS :=
  let a := analyze_video_properties env.problem p
  let body :=
    if a.2 then
      let c := check_file_structure env.problem.content
      let m := test_ffmpeg_methods env.problem.ffmpeg problemOutputDir fs
      let report := if m.2.2.isEmpty then [Ev.noSolutionMsg]
                    else [Ev.solutionMsg m.2.2]
      (c ++ m.1 ++ report, m.2.1)
    else
      (([] : List Ev), fs)
  (Ev.problemIntro p :: a.1 ++ body.1,
   removeIfPresent body.2 problemOutputDir)

/-- `main()` of `debug_video_processing.py`.  Returns the trace, the
final filesystem and how the function ended (it has no `sys.exit` call
and every modelled exception is handled below it, so every path returns
normally). -/
def main (env : DebugEnv) (fs : FS) : List Ev × FS × ScriptResult :=
  let w := test_with_working_video env fs
  if !w.2.2 then
    (Ev.mainIntro :: w.1 ++ [Ev.criticalMsg], w.2.1, .normal)
  else
    let s := findUploadedVideo env
    match s.2 with
    | none =>
      (Ev.mainIntro :: w.1 ++ s.1 ++ [Ev.noUploadsMsg], w.2.1, .normal)
    | some p =>
      let b := problemPhase env p w.2.1
      (Ev.mainIntro :: w.1 ++ s.1 ++ b.1, b.2, .normal)

end DebugVideo

namespace TestExtraction

/-- Output directory of `test_ffmpeg_extraction.py`. -/
def testDir : String := "test_ffmpeg_output"

/-- External behaviour of one run of `test_ffmpeg_extraction.py`: whether
the example video exists, the status of the single `ffmpeg` invocation,
the number of `.png` frames it writes, and the elapsed wall time in
seconds (used only to pick the performance message). -/
structure ExtractEnv where
  videoExists : Bool
  status : ExecStatus
  frames : Nat
  elapsed : ℚ

/-- `test_ffmpeg_extraction()`: missing video prints a message and
returns; otherwise the output directory is deleted if present and
recreated, the single `ffmpeg` command is run inside a `try` whose
handlers catch `CalledProcessError` and `Exception`, and the output
directory is removed again before returning.  No path raises or calls
`sys.exit`. -/
def test_ffmpeg_extraction (env : ExtractEnv) (fs : FS) :
    List Ev × FS × ScriptResult :=
  if !env.videoExists then
    ([.extNoVideoMsg], fs, .normal)
  else
    let files := (List.range env.frames).map (fun k => ((0, k) : FrameFile))
    let fs1 := fsSet fs testDir (some files)
    let attempt :=
      match env.status with
      | .completed code =>
        if code = 0 then
          [Ev.extSuccessMsg env.frames,
           Ev.extPerfMsg (if env.elapsed < 5 then 0
                          else if env.elapsed < 10 then 1 else 2)]
        else [Ev.extFailedMsg code]
      | .timedOut => [Ev.extUnexpectedMsg]
      | .errored => [Ev.extUnexpectedMsg]
    (Ev.extTestingMsg :: Ev.cmdRun testDir 0 :: attempt,
     removeIfPresent fs1 testDir, .normal)

end TestExtraction

namespace Bench

/-- One entry of the `results` list of `benchmark_inference`. -/
structure BenchRecord where
  num_images : Nat
  load_time : ℚ
  inference_time : ℚ
  memory_gb : ℚ
  deriving DecidableEq

/-- External behaviour of one run of `benchmark_inference.py`: CUDA
availability, the device's compute capability, whether the image
directory exists, how many image files it holds, and the measured
load time, per-run inference times and peak memory per test case. -/
structure BenchEnv where
  cudaAvailable : Bool
  capability : Nat
  imageDirExists : Bool
  numImages : Nat
  loadTime : Nat → ℚ
  inferTime : Nat → Nat → ℚ
  memGB : Nat → ℚ

/-- Observable events of `benchmark_inference.py`. -/
inductive BEv where
  | printDevice (d : String)
  | printGPU
  | printCapability
  | printDtype (bf16 : Bool)
  | printLoadingModel
  | constructModel
  | download (url : String)
  | printModelLoaded
  | printDirMissing
  | printCaseStart (n : Nat)
  | loadMeasured (n : Nat)
  | printLoadTime (n : Nat)
  | warmupRun (n : Nat)
  | inferMeasured (n : Nat) (run : Nat)
  | printInferTime (n : Nat)
  | memMeasured (n : Nat)
  | recordAdded (r : BenchRecord)
  | memReset (n : Nat)
  | printSummary (rs : List BenchRecord)
  | printAnalysis (n : Nat) (slowdown : ℚ)
  deriving DecidableEq

/-- The fixed `test_cases` list of `benchmark_inference`. -/
def test_cases : List Nat := [1, 2, 4, 8, 10, 20, 50]

/-- The fixed checkpoint URL `_URL` of `benchmark_inference`. -/
def modelURL : String :=
  "https://huggingface.co/facebook/VGGT-1B/resolve/main/model.pt"

/-- `get_paper_time(num_images)`: a plain dictionary lookup in the paper's
benchmark table; `dict.get` returns `None` on a missing key. -/
def paper_data : List (Int × ℚ) :=
  [(1, 0.04), (2, 0.05), (4, 0.07), (8, 0.11),
   (10, 0.14), (20, 0.31), (50, 1.04)]

/-- `get_paper_time` itself. -/
def get_paper_time (num_images : Int) : Option ℚ :=
  paper_data.lookup num_images

/-- `np.mean` of the three timed runs for test case `n`. -/
def avg3 (t : Nat → ℚ) : ℚ := (t 0 + t 1 + t 2) / 3

/-- The body of the `for num_images in test_cases` loop for one
non-skipped size `n`: timed image loading, a warmup run, three timed
inference runs, a memory reading, the record append, and the peak-memory
reset. -/
def benchCase (env : BenchEnv) (n : Nat) : List BEv × BenchRecord :=
  ([BEv.printCaseStart n, BEv.loadMeasured n, BEv.printLoadTime n,
    BEv.warmupRun n,
    BEv.inferMeasured n 0, BEv.inferMeasured n 1, BEv.inferMeasured n 2,
    BEv.printInferTime n, BEv.memMeasured n,
    BEv.recordAdded ⟨n, env.loadTime n, avg3 (env.inferTime n), env.memGB n⟩,
    BEv.memReset n],
   ⟨n, env.loadTime n, avg3 (env.inferTime n), env.memGB n⟩)

/-- The `for num_images in test_cases` loop: sizes exceeding the number
of available image files are skipped with `continue`; every other size
runs `benchCase` once, in list order. -/
def benchLoop (env : BenchEnv) : List Nat → List BEv × List BenchRecord
  | [] => ([], [])
  | n :: rest =>
    if n > env.numImages then benchLoop env rest
    else
      let c := benchCase env n
      let t := benchLoop env rest
      (c.1 ++ t.1, c.2 :: t.2)

/-- The analysis loop at the end of `benchmark_inference`: one line per
record whose size has a paper time. -/
def analysisEvents : List BenchRecord → List BEv
  | [] => []
  | r :: rs =>
    (match get_paper_time (r.num_images : Int) with
     | some t => [BEv.printAnalysis r.num_images (r.inference_time / t)]
     | none => []) ++ analysisEvents rs

/-- `benchmark_inference()`.  Line 13 computes the device string; line 14
calls `torch.cuda.get_device_capability()`, which raises a
`RuntimeError` when no CUDA device is available — before anything is
printed and before the model is constructed or downloaded.  With CUDA
available the function prints its header, constructs the model,
downloads the checkpoint from the fixed URL, and either returns early
when the image directory is missing or runs the benchmark loop and the
summary. -/
def benchmark_inference (env : BenchEnv) :
    List BEv × List BenchRecord × ScriptResult :=
  let device := if env.cudaAvailable then "cuda" else "cpu"
  if !env.cudaAvailable then
    ([], [], .uncaught .runtimeError)
  else
    let bf16 := decide (env.capability ≥ 8)
    let head := [BEv.printDevice device, BEv.printGPU, BEv.printCapability,
                 BEv.printDtype bf16, BEv.printLoadingModel,
                 BEv.constructModel, BEv.download modelURL,
                 BEv.printModelLoaded]
    if !env.imageDirExists then
      (head ++ [BEv.printDirMissing], [], .normal)
    else
      let l := benchLoop env test_cases
      (head ++ l.1 ++ [BEv.printSummary l.2] ++ analysisEvents l.2,
       l.2, .normal)

end Bench

/-! Observation helpers used by the theorems. -/

/-- The method index of a subprocess-invocation event. -/
def cmdIdx : Ev → Option Nat
  | .cmdRun _ i => some i
  | _ => none

/-- Whether an event is a file read. -/
def isRead : Ev → Bool
  | .fread _ _ => true
  | _ => false

/-- The directory an examined-directory event refers to. -/
def globbedDir : Ev → Option String
  | .globbed d => some d
  | _ => none

/-- First byte check of `check_file_structure`, as the spec words it: the
first 1024 bytes begin with the three bytes `0x00 0x00 0x00`. -/
def startsWithSizeBox (c : List Byte) : Bool :=
  (c.take 1024).take 3 == [0, 0, 0]

/-- Second byte check: `moov` occurs within the first 1024 bytes. -/
def moovInFirst1024 (c : List Byte) : Bool :=
  bytesContain (c.take 1024) DebugVideo.moovBytes

/-- Third byte check: `moov` occurs within the final 1024 bytes. -/
def moovInFinal1024 (c : List Byte) : Bool :=
  bytesContain (c.drop (c.length - 1024)) DebugVideo.moovBytes

/-- Fourth byte check: `mdat` occurs within the first 8192 bytes. -/
def mdatInFirst8192 (c : List Byte) : Bool :=
  bytesContain (c.take 8192) DebugVideo.mdatBytes

/-- The message the outcome of a failed or degenerate `ffmpeg` invocation
of `test_ffmpeg_methods` produces: non-zero exit, timeout and other
exceptions each have one; a clean exit has none (its messages depend on
the frame count). -/
def failureMsg (i : Nat) : ExecStatus → Option Ev
  | .completed 0 => none
  | .completed c => some (.methodFailed i c)
  | .timedOut => some (.methodTimeout i)
  | .errored => some (.methodUnexpectedError i)

/-- Whether a benchmark event is the checkpoint download. -/
def isDownload : Bench.BEv → Bool
  | .download _ => true
  | _ => false

/-- Whether a benchmark event is a timing or memory measurement. -/
def isMeasurement : Bench.BEv → Bool
  | .loadMeasured _ => true
  | .inferMeasured _ _ => true
  | .memMeasured _ => true
  | _ => false

/-- Descending order used by `upload_dirs.sort(reverse=True)`. -/
def DescR (a b : String) : Prop := pyStrGe a b = true

end VggtScripts

open VggtScripts VggtScripts.DebugVideo VggtScripts.TestExtraction VggtScripts.Bench

/-! ### Theorems -/

/-- The `results` list built by the benchmark loop is exactly one record
per non-skipped test size, in list order. -/
theorem benchLoop_results (env : BenchEnv) : ∀ is : List Nat,
    (benchLoop env is).2 =
      (is.filter (fun n => decide (n ≤ env.numImages))).map
        (fun n => ⟨n, env.loadTime n, avg3 (env.inferTime n), env.memGB n⟩) := by
  intro is
  induction is with
  | nil => rfl
  | cons n rest ih =>
    by_cases h : n > env.numImages
    · have h2 : ¬ (n ≤ env.numImages) := by omega
      simp [benchLoop, h, h2, ih]
    · have h2 : n ≤ env.numImages := by omega
      simp [benchLoop, h, h2, ih, benchCase]

/-- C9: `get_paper_time` returns the tabulated paper time exactly on the
seven tabulated sizes and `None` on every other integer; there is no
interpolation between listed sizes. -/
theorem C9_get_paper_time_exact : ∀ n : Int,
    get_paper_time n =
      if n = 1 then some 0.04 else if n = 2 then some 0.05
      else if n = 4 then some 0.07 else if n = 8 then some 0.11
      else if n = 10 then some 0.14 else if n = 20 then some 0.31
      else if n = 50 then some 1.04 else none := by
  intro n
  by_cases h1 : n = 1
  · subst h1; simp [get_paper_time, paper_data, List.lookup]
  by_cases h2 : n = 2
  · subst h2; simp [get_paper_time, paper_data, List.lookup]
  by_cases h4 : n = 4
  · subst h4; simp [get_paper_time, paper_data, List.lookup]
  by_cases h8 : n = 8
  · subst h8; simp [get_paper_time, paper_data, List.lookup]
  by_cases h10 : n = 10
  · subst h10; simp [get_paper_time, paper_data, List.lookup]
  by_cases h20 : n = 20
  · subst h20; simp [get_paper_time, paper_data, List.lookup]
  by_cases h50 : n = 50
  · subst h50; simp [get_paper_time, paper_data, List.lookup]
  have e1 : (n == 1) = false := beq_eq_false_iff_ne.mpr h1
  have e2 : (n == 2) = false := beq_eq_false_iff_ne.mpr h2
  have e4 : (n == 4) = false := beq_eq_false_iff_ne.mpr h4
  have e8 : (n == 8) = false := beq_eq_false_iff_ne.mpr h8
  have e10 : (n == 10) = false := beq_eq_false_iff_ne.mpr h10
  have e20 : (n == 20) = false := beq_eq_false_iff_ne.mpr h20
  have e50 : (n == 50) = false := beq_eq_false_iff_ne.mpr h50
  simp [get_paper_time, paper_data, List.lookup, h1, h2, h4, h8, h10, h20,
        h50, e1, e2, e4, e8, e10, e20, e50]

/-- C8: without CUDA, `benchmark_inference` raises at the
`get_device_capability` call on line 14 — with an empty trace: nothing
has been printed and the model has been neither constructed nor
downloaded. -/
theorem C8_benchmark_requires_cuda :
    ∀ env : BenchEnv, env.cudaAvailable = false →
      benchmark_inference env = ([], [], .uncaught .runtimeError) := by
  intro env h
  simp [benchmark_inference, h]

/-- A CUDA-less environment for the C8 witness. -/
def benchEnvNoCuda : BenchEnv :=
  ⟨false, 0, true, 10, fun _ => 0, fun _ _ => 0, fun _ => 0⟩

/-- Witness for C8 at a concrete environment. -/
theorem C8_witness :
    benchEnvNoCuda.cudaAvailable = false ∧
      benchmark_inference benchEnvNoCuda = ([], [], .uncaught .runtimeError) :=
  ⟨rfl, C8_benchmark_requires_cuda benchEnvNoCuda rfl⟩

/-- C3: on a readable file, `check_file_structure` performs the four byte
checks in a fixed order — size-box signature in the first 1024 bytes,
`moov` in the first 1024 bytes, `moov` in the final 1024 bytes, `mdat` in
the first 8192 bytes — each outcome only selecting the printed message;
the reads performed are the same three regardless of any outcome. -/
theorem C3_check_file_structure_fixed_checks : ∀ c : List Byte,
    check_file_structure (some c) =
      [Ev.checkHeader, Ev.fread 0 1024, Ev.hexDump ((c.take 1024).take 64),
       Ev.asciiDump ((c.take 1024).take 64)]
      ++ (if startsWithSizeBox c then [Ev.mp4SigMsg] else [])
      ++ [Ev.moovHeaderMsg (moovInFirst1024 c)]
      ++ [Ev.fread (c.length - 1024) 1024, Ev.moovFooterMsg (moovInFinal1024 c)]
      ++ [Ev.fread 0 8192, Ev.mdatMsg (mdatInFirst8192 c)]
    ∧ (check_file_structure (some c)).filter isRead =
      [Ev.fread 0 1024, Ev.fread (c.length - 1024) 1024, Ev.fread 0 8192] := by
  intro c
  constructor
  · simp [check_file_structure, startsWithSizeBox, moovInFirst1024,
          moovInFinal1024, mdatInFirst8192]
  · by_cases h : (c.take 1024).take 3 == [0, 0, 0] <;>
      simp [check_file_structure, isRead, h, List.filter]

/-- C4: with CUDA and the image directory present, the benchmark iterates
over exactly the fixed sizes 1, 2, 4, 8, 10, 20, 50 in increasing order,
skips the sizes exceeding the number of available images, and appends
exactly one record (count, load time, mean of the three inference times,
memory) per remaining size. -/
theorem C4_benchmark_iterates_fixed_sizes (env : BenchEnv)
    (hc : env.cudaAvailable = true) (hd : env.imageDirExists = true) :
    (benchmark_inference env).2.1 =
      (test_cases.filter (fun n => decide (n ≤ env.numImages))).map
        (fun n => ⟨n, env.loadTime n, avg3 (env.inferTime n), env.memGB n⟩)
    ∧ test_cases = [1, 2, 4, 8, 10, 20, 50]
    ∧ List.Chain' (· < ·) test_cases := by
  refine ⟨?_, rfl, by norm_num [test_cases, List.chain'_cons]⟩
  simp [benchmark_inference, hc, hd]
  exact benchLoop_results env test_cases

/-- A CUDA environment with four available images, for witnesses. -/
def benchEnvW : BenchEnv :=
  ⟨true, 8, true, 4, fun _ => 1, fun _ _ => 2, fun _ => 3⟩

/-- After the per-method clear, the files matching `method{i}_*.png` are
exactly the ones the method-`i` invocation just wrote. -/
theorem extracted_eq_fresh (l : List FrameFile) (i n : Nat) :
    ((clearMethodFiles l i) ++
        (List.range n).map (fun k => ((i, k) : FrameFile))).filter
        (fun f => f.1 == i) =
      (List.range n).map (fun k => ((i, k) : FrameFile)) := by
  rw [List.filter_append]
  have h1 : (clearMethodFiles l i).filter (fun f => f.1 == i) = [] := by
    induction l with
    | nil => rfl
    | cons a t ih =>
      by_cases h : a.1 = i <;>
        simp [clearMethodFiles, List.filter_cons, h, bne] at ih ⊢
  have h2 : ((List.range n).map (fun k => ((i, k) : FrameFile))).filter
      (fun f => f.1 == i) = (List.range n).map (fun k => ((i, k) : FrameFile)) := by
    rw [List.filter_eq_self]
    intro a ha
    rcases List.mem_map.mp ha with ⟨k, _, rfl⟩
    simp
  rw [h1, h2, List.nil_append]

/-- The name one loop iteration appends to `successful_methods` depends
only on the invocation's status and frame count: the method name when the
command exited zero and wrote at least one frame, nothing otherwise. -/
theorem runStep_succName (env : FfmpegEnv) (dir : String) (fs : FS) (i : Nat) :
    (runStep env dir fs i).2.2 =
      if env.status i = .completed 0 ∧ env.frames i ≠ 0
      then some (methodNames.getD (i - 1) "") else none := by
  unfold runStep
  cases hs : env.status i with
  | completed code =>
    by_cases hc : code = 0
    · subst hc
      have he := extracted_eq_fresh ((fs dir).getD []) i (env.frames i)
      by_cases hf : env.frames i = 0
      · simp only [hf, List.range_zero, List.map_nil, List.append_nil] at he
        simp [hs, hf, he]
      · have : 0 < env.frames i := Nat.pos_of_ne_zero hf
        simp [hs, hf, he, this]
    · simp [hs, hc]
  | timedOut => simp [hs]
  | errored => simp [hs]

/-- Each loop iteration runs exactly one subprocess command: its own. -/
theorem runStep_cmds (env : FfmpegEnv) (dir : String) (fs : FS) (i : Nat) :
    (runStep env dir fs i).1.filterMap cmdIdx = [i] := by
  unfold runStep
  cases env.status i
  all_goals simp [cmdIdx]
  all_goals split_ifs <;> simp [cmdIdx]

/-- The subprocess commands run by the method loop are exactly the given
method indices, in the given order, whatever each invocation's outcome. -/
theorem runMethods_cmds (env : FfmpegEnv) (dir : String) :
    ∀ (is : List Nat) (fs : FS),
      (runMethods env dir is fs).1.filterMap cmdIdx = is := by
  intro is
  induction is with
  | nil => intro fs; rfl
  | cons i rest ih =>
    intro fs
    simp only [runMethods, List.filterMap_append, runStep_cmds, ih]
    rfl

/-- `successful_methods` after the loop: one name per index whose command
exited zero having written at least one frame, in loop order. -/
theorem runMethods_succ (env : FfmpegEnv) (dir : String) :
    ∀ (is : List Nat) (fs : FS),
      (runMethods env dir is fs).2.2 =
        is.filterMap (fun i =>
          if env.status i = .completed 0 ∧ env.frames i ≠ 0
          then some (methodNames.getD (i - 1) "") else none) := by
  intro is
  induction is with
  | nil => intro fs; rfl
  | cons i rest ih =>
    intro fs
    simp only [runMethods, List.filterMap_cons, runStep_succName, ih]
    by_cases h : env.status i = .completed 0 ∧ env.frames i ≠ 0 <;> simp [h]

/-- C1: `test_ffmpeg_methods` runs all six command variants in their
listed order — whatever the earlier outcomes were — and returns exactly
the names, in trial order, of the variants whose subprocess exited with
code zero and wrote at least one frame file matching the variant's
pattern; a variant exiting zero with no frame file is omitted. -/
theorem C1_test_ffmpeg_methods_tries_all_and_returns_successes :
    ∀ (env : FfmpegEnv) (dir : String) (fs : FS),
      (test_ffmpeg_methods env dir fs).1.filterMap cmdIdx = [1, 2, 3, 4, 5, 6]
      ∧ (test_ffmpeg_methods env dir fs).2.2 =
          [1, 2, 3, 4, 5, 6].filterMap (fun i =>
            if env.status i = .completed 0 ∧ env.frames i ≠ 0
            then some (methodNames.getD (i - 1) "") else none) := by
  intro env dir fs
  constructor
  · simp only [test_ffmpeg_methods, List.filterMap_append, runMethods_cmds]
    have : (([if (runMethods env dir [1, 2, 3, 4, 5, 6]
        (fsSet fs dir (some []))).2.2.isEmpty then Ev.summaryNoneMsg
        else Ev.summarySuccessMsg (runMethods env dir [1, 2, 3, 4, 5, 6]
        (fsSet fs dir (some []))).2.2]).filterMap cmdIdx) = [] := by
      split <;> rfl
    rw [this, List.append_nil]
  · simp only [test_ffmpeg_methods, runMethods_succ]

/-- One loop iteration contains the command event of its own method
exactly once, and no other method's. -/
theorem runStep_count (env : FfmpegEnv) (dir : String) (fs : FS) (i k : Nat) :
    (runStep env dir fs k).1.count (Ev.cmdRun dir i) = if i = k then 1 else 0 := by
  unfold runStep
  cases env.status k
  all_goals simp [List.count_cons, List.count_nil]
  all_goals split_ifs <;> simp_all [List.count_cons, List.count_nil, eq_comm]

/-- The method loop contains each method's command event as often as its
index occurs among the processed indices. -/
theorem runMethods_count (env : FfmpegEnv) (dir : String) (i : Nat) :
    ∀ (is : List Nat) (fs : FS),
      (runMethods env dir is fs).1.count (Ev.cmdRun dir i) = is.count i := by
  intro is
  induction is with
  | nil => intro fs; rfl
  | cons k rest ih =>
    intro fs
    simp only [runMethods, List.count_append, runStep_count, ih,
               List.count_cons]
    by_cases h : i = k <;> simp [h, beq_iff_eq, Nat.add_comm]
    omega

/-- A failed iteration's console message is in the iteration's trace. -/
theorem runStep_failMsg (env : FfmpegEnv) (dir : String) (fs : FS)
    (i : Nat) (e : Ev) (h : failureMsg i (env.status i) = some e) :
    e ∈ (runStep env dir fs i).1 := by
  unfold runStep
  cases hs : env.status i with
  | completed code =>
    cases code with
    | zero => rw [hs] at h; exact absurd h (by simp [failureMsg])
    | succ c =>
      rw [hs] at h
      simp only [failureMsg, Option.some.injEq] at h
      simp [← h]
  | timedOut =>
    rw [hs] at h
    simp only [failureMsg, Option.some.injEq] at h
    simp [← h]
  | errored =>
    rw [hs] at h
    simp only [failureMsg, Option.some.injEq] at h
    simp [← h]

/-- A failed method's console message is in the loop's trace. -/
theorem runMethods_failMsg (env : FfmpegEnv) (dir : String) :
    ∀ (is : List Nat) (fs : FS) (i : Nat) (e : Ev), i ∈ is →
      failureMsg i (env.status i) = some e →
      e ∈ (runMethods env dir is fs).1 := by
  intro is
  induction is with
  | nil => intro fs i e hi; exact absurd hi (List.not_mem_nil i)
  | cons k rest ih =>
    intro fs i e hi hm
    rcases List.mem_cons.mp hi with h | h
    · subst h
      exact List.mem_append.mpr (Or.inl (runStep_failMsg env dir fs i e hm))
    · exact List.mem_append.mpr (Or.inr (ih _ i e h hm))

/-- C2: in the video-debugging scripts every listed failure kind — a
subprocess exiting non-zero, a subprocess timeout, a missing input file —
is handled inside the function where it occurs and reported as a console
message; the functions return normally (no propagation), and no command
variant is ever run more than once per invocation. -/
theorem C2_failures_caught_locally_no_retry :
    (∀ (env : FfmpegEnv) (dir : String) (fs : FS) (i : Nat),
       (test_ffmpeg_methods env dir fs).1.count (Ev.cmdRun dir i) ≤ 1)
    ∧ (∀ (env : FfmpegEnv) (dir : String) (fs : FS) (i : Nat) (e : Ev),
         i ∈ [1, 2, 3, 4, 5, 6] → failureMsg i (env.status i) = some e →
         e ∈ (test_ffmpeg_methods env dir fs).1)
    ∧ (∀ (env : VideoEnv) (path : String),
         (env.fileExists = false →
           analyze_video_properties env path =
             ([.analyzeStart path, .videoNotFound path], false))
         ∧ (env.fileExists = true → env.probe1 = .calledProcessError →
             Ev.ffprobeFailed path ∈ (analyze_video_properties env path).1
             ∧ (analyze_video_properties env path).2 = false)
         ∧ (env.fileExists = true → env.probe1 = .fileNotFound →
             Ev.ffprobeMissing path ∈ (analyze_video_properties env path).1
             ∧ (analyze_video_properties env path).2 = false)
         ∧ (env.fileExists = true → env.probe1 = .ok →
             env.probe2 = .calledProcessError →
             Ev.ffprobeFailed path ∈ (analyze_video_properties env path).1
             ∧ (analyze_video_properties env path).2 = false)
         ∧ (env.fileExists = true → env.probe1 = .ok →
             env.probe2 = .fileNotFound →
             Ev.ffprobeMissing path ∈ (analyze_video_properties env path).1
             ∧ (analyze_video_properties env path).2 = false))
    ∧ (∀ (env : ExtractEnv) (fs : FS),
         (test_ffmpeg_extraction env fs).2.2 = .normal
         ∧ (env.videoExists = false →
             Ev.extNoVideoMsg ∈ (test_ffmpeg_extraction env fs).1)
         ∧ (∀ c, env.videoExists = true → env.status = .completed (c + 1) →
             Ev.extFailedMsg (c + 1) ∈ (test_ffmpeg_extraction env fs).1)
         ∧ (env.videoExists = true →
             env.status = .timedOut ∨ env.status = .errored →
             Ev.extUnexpectedMsg ∈ (test_ffmpeg_extraction env fs).1)) := by
  refine ⟨?_, ?_, ?_, ?_⟩
  · intro env dir fs i
    have h : (test_ffmpeg_methods env dir fs).1.count (Ev.cmdRun dir i) =
        [1, 2, 3, 4, 5, 6].count i := by
      simp only [test_ffmpeg_methods, List.count_append, runMethods_count]
      have : ([if (runMethods env dir [1, 2, 3, 4, 5, 6]
          (fsSet fs dir (some []))).2.2.isEmpty then Ev.summaryNoneMsg
          else Ev.summarySuccessMsg (runMethods env dir [1, 2, 3, 4, 5, 6]
          (fsSet fs dir (some []))).2.2]).count (Ev.cmdRun dir i) = 0 := by
        split <;> rfl
      omega
    rw [h]
    simp [List.count_cons, List.count_nil, beq_iff_eq]
    split_ifs <;> omega
  · intro env dir fs i e hi hm
    simp only [test_ffmpeg_methods]
    exact List.mem_append.mpr
      (Or.inl (runMethods_failMsg env dir [1, 2, 3, 4, 5, 6] _ i e hi hm))
  · intro env path
    refine ⟨?_, ?_, ?_, ?_, ?_⟩
    · intro h; simp [analyze_video_properties, h]
    · intro h hp; simp [analyze_video_properties, h, hp]
    · intro h hp; simp [analyze_video_properties, h, hp]
    · intro h h1 h2; simp [analyze_video_properties, h, h1, h2]
    · intro h h1 h2; simp [analyze_video_properties, h, h1, h2]
  · intro env fs
    refine ⟨?_, ?_, ?_, ?_⟩
    · cases h : env.videoExists <;> simp [test_ffmpeg_extraction, h]
    · intro h; simp [test_ffmpeg_extraction, h]
    · intro c h hs; simp [test_ffmpeg_extraction, h, hs]
    · intro h hs
      rcases hs with hs | hs <;> simp [test_ffmpeg_extraction, h, hs]

/-- A failing environment for the C2 witness: method 3 exits with code 2. -/
def ffmpegEnvFail : FfmpegEnv :=
  { status := fun i => if i = 3 then .completed 2 else .completed 0,
    frames := fun _ => 1 }

/-- Witness for C2: at a concrete environment where method 3 exits with
code 2, the failure message is reported in the trace. -/
theorem C2_witness :
    (3 ∈ [1, 2, 3, 4, 5, 6]
      ∧ failureMsg 3 (ffmpegEnvFail.status 3) = some (Ev.methodFailed 3 2))
    ∧ Ev.methodFailed 3 2 ∈
        (test_ffmpeg_methods ffmpegEnvFail "out" (fun _ => none)).1 :=
  ⟨⟨by decide, by decide⟩,
   C2_failures_caught_locally_no_retry.2.1 ffmpegEnvFail "out" (fun _ => none)
     3 (Ev.methodFailed 3 2) (by decide) (by decide)⟩

/-- `fsSet` leaves other directories untouched. -/
theorem fsSet_other {fs : FS} {d x : String} {v : Option (List FrameFile)}
    (h : x ≠ d) : fsSet fs d v x = fs x := by
  simp [fsSet, h]

/-- One method iteration only writes inside the output directory. -/
theorem runStep_fs_other (env : FfmpegEnv) (dir : String) (fs : FS)
    (k : Nat) {x : String} (h : x ≠ dir) :
    (runStep env dir fs k).2.1 x = fs x := by
  simp only [runStep]
  cases env.status k
  all_goals repeat' split
  all_goals simp [fsSet, h]

/-- The method loop only writes inside the output directory. -/
theorem runMethods_fs_other (env : FfmpegEnv) (dir : String) :
    ∀ (is : List Nat) (fs : FS) {x : String}, x ≠ dir →
      (runMethods env dir is fs).2.1 x = fs x := by
  intro is
  induction is with
  | nil => intro fs x _; rfl
  | cons k rest ih =>
    intro fs x h
    simp only [runMethods]
    rw [ih _ h, runStep_fs_other env dir fs k h]

/-- `test_ffmpeg_methods` only writes inside its output directory. -/
theorem tfm_fs_other (env : FfmpegEnv) (dir : String) (fs : FS)
    {x : String} (h : x ≠ dir) :
    (test_ffmpeg_methods env dir fs).2.1 x = fs x := by
  simp only [test_ffmpeg_methods]
  rw [runMethods_fs_other env dir _ _ h, fsSet_other h]

/-- The remove-if-present cleanup leaves the directory absent. -/
theorem removeIfPresent_self (fs : FS) (d : String) :
    removeIfPresent fs d d = none := by
  unfold removeIfPresent
  by_cases h : (fs d).isSome
  · simp [h, fsSet]
  · simp only [h, if_false]
    exact Option.not_isSome_iff_eq_none.mp h

/-- The remove-if-present cleanup leaves other directories untouched. -/
theorem removeIfPresent_other (fs : FS) (d : String) {x : String}
    (h : x ≠ d) : removeIfPresent fs d x = fs x := by
  unfold removeIfPresent
  split
  · exact fsSet_other h
  · rfl

/-- `test_with_working_video` leaves no directory behind that was absent
before it ran. -/
theorem tww_fs (env : DebugEnv) (fs : FS) (x : String) (h : fs x = none) :
    (test_with_working_video env fs).2.1 x = none := by
  unfold test_with_working_video
  cases hw : env.workingVideoExists <;> simp only [hw, Bool.false_eq_true,
    if_false, if_true]
  · exact h
  · by_cases hx : x = workingOutputDir
    · subst hx; exact removeIfPresent_self _ _
    · rw [removeIfPresent_other _ _ hx, tfm_fs_other _ _ _ hx]
      exact h

/-- The problem phase leaves no directory behind that was absent before
it ran. -/
theorem problemPhase_fs (env : DebugEnv) (p : String) (fs : FS)
    (x : String) (h : fs x = none) :
    (problemPhase env p fs).2 x = none := by
  simp only [problemPhase]
  by_cases hx : x = problemOutputDir
  · subst hx; exact removeIfPresent_self _ _
  · refine Eq.trans (removeIfPresent_other _ _ hx) ?_
    by_cases ha : (analyze_video_properties env.problem p).2 = true
    · rw [if_pos ha]
      show (test_ffmpeg_methods env.problem.ffmpeg problemOutputDir fs).2.1 x
        = none
      rw [tfm_fs_other _ _ _ hx]
      exact h
    · rw [if_neg ha]
      exact h

/-- `main` of the debug script leaves no directory behind that was absent
before it ran. -/
theorem main_fs (env : DebugEnv) (fs : FS) (x : String) (h : fs x = none) :
    (DebugVideo.main env fs).2.1 x = none := by
  have hw := tww_fs env fs x h
  simp only [DebugVideo.main]
  split
  · exact hw
  · split
    · exact hw
    · exact problemPhase_fs env _ _ x hw

/-- `test_ffmpeg_extraction` leaves no directory behind that was absent
before it ran. -/
theorem extraction_fs (env : ExtractEnv) (fs : FS) (x : String)
    (h : fs x = none) :
    (test_ffmpeg_extraction env fs).2.1 x = none := by
  unfold test_ffmpeg_extraction
  cases hv : env.videoExists <;> simp only [hv, Bool.not_false, Bool.not_true,
    Bool.false_eq_true, if_false, if_true]
  · exact h
  · by_cases hx : x = testDir
    · subst hx; exact removeIfPresent_self _ _
    · rw [removeIfPresent_other _ _ hx, fsSet_other hx]
      exact h

/-- Every path of the debug script's `main` returns normally. -/
theorem main_normal (env : DebugEnv) (fs : FS) :
    (DebugVideo.main env fs).2.2 = .normal := by
  simp only [DebugVideo.main]
  split
  · rfl
  · split <;> rfl

/-- Every path of `test_ffmpeg_extraction` returns normally. -/
theorem extraction_normal (env : ExtractEnv) (fs : FS) :
    (test_ffmpeg_extraction env fs).2.2 = .normal := by
  unfold test_ffmpeg_extraction
  split <;> rfl

/-- With CUDA available, every path of `benchmark_inference` returns
normally. -/
theorem bench_normal (env : BenchEnv) (hc : env.cudaAvailable = true) :
    (benchmark_inference env).2.2 = .normal := by
  unfold benchmark_inference
  simp only [hc, Bool.not_true, Bool.false_eq_true, if_false]
  split <;> rfl

/-- C5: no script persists state: any directory (with its frame files)
that did not exist when a run started does not exist when the run's
top-level function returns, for the debug script's `main` and for
`test_ffmpeg_extraction` — so everything the run created has been
removed again. -/
theorem C5_no_created_entity_persists :
    (∀ (env : DebugEnv) (fs : FS) (x : String), fs x = none →
       (DebugVideo.main env fs).2.1 x = none)
    ∧ (∀ (env : ExtractEnv) (fs : FS) (x : String), fs x = none →
        (TestExtraction.test_ffmpeg_extraction env fs).2.1 x = none) :=
  ⟨main_fs, extraction_fs⟩

/-- A concrete debug-script environment for witnesses. -/
def debugEnvW : DebugEnv :=
  { workingVideoExists := true,
    working := ⟨true, 100, .ok, .ok, some [0, 0, 0], ffmpegEnvFail⟩,
    listdir := ["input_images_a"],
    globMP4 := fun _ => [],
    globmp4 := fun _ => [],
    problem := ⟨true, 100, .ok, .ok, some [0, 0, 0], ffmpegEnvFail⟩ }

/-- Witness for C5 at a concrete environment: an initially absent
`debug_working_output` is absent again after `main`. -/
theorem C5_witness :
    ((fun _ => none : FS) "debug_working_output" = none)
    ∧ (DebugVideo.main debugEnvW (fun _ => none)).2.1
        "debug_working_output" = none :=
  ⟨rfl, C5_no_created_entity_persists.1 debugEnvW (fun _ => none)
    "debug_working_output" rfl⟩

/-- C6: on every handled failure path the scripts' top-level functions
return normally — never via `sys.exit` and never by raising — so the
process exit status is never script-defined.  For the two video scripts
this holds on every path; for the benchmark it holds on every path with
CUDA available (its failure path is the missing image directory). -/
theorem C6_top_level_returns_normally :
    (∀ (env : DebugEnv) (fs : FS), (DebugVideo.main env fs).2.2 = .normal)
    ∧ (∀ (env : ExtractEnv) (fs : FS),
        (TestExtraction.test_ffmpeg_extraction env fs).2.2 = .normal)
    ∧ (∀ env : BenchEnv, env.cudaAvailable = true →
        (benchmark_inference env).2.2 = .normal) :=
  ⟨main_normal, extraction_normal, bench_normal⟩

/-- A CUDA environment whose image directory is missing, for the C6
witness (the benchmark's handled failure path). -/
def benchEnvNoDir : BenchEnv :=
  ⟨true, 8, false, 0, fun _ => 0, fun _ _ => 0, fun _ => 0⟩

/-- Witness for C6 at a concrete environment. -/
theorem C6_witness :
    benchEnvNoDir.cudaAvailable = true ∧
      (benchmark_inference benchEnvNoDir).2.2 = .normal :=
  ⟨rfl, C6_top_level_returns_normally.2.2 benchEnvNoDir rfl⟩

/-- No event of one benchmark-loop iteration is a download. -/
theorem benchCase_noDownload (env : BenchEnv) (n : Nat) (e : BEv)
    (he : e ∈ (benchCase env n).1) : isDownload e = false := by
  simp only [benchCase, List.mem_cons, List.not_mem_nil, or_false] at he
  rcases he with rfl | rfl | rfl | rfl | rfl | rfl | rfl | rfl | rfl | rfl | rfl
    <;> rfl

/-- No event of the benchmark loop is a download. -/
theorem benchLoop_noDownload (env : BenchEnv) :
    ∀ (is : List Nat) (e : BEv), e ∈ (benchLoop env is).1 →
      isDownload e = false := by
  intro is
  induction is with
  | nil => intro e he; exact absurd he (List.not_mem_nil e)
  | cons n rest ih =>
    intro e he
    simp only [benchLoop] at he
    by_cases h : n > env.numImages
    · rw [if_pos h] at he
      exact ih e he
    · rw [if_neg h] at he
      rcases List.mem_append.mp he with h1 | h1
      · exact benchCase_noDownload env n e h1
      · exact ih e h1

/-- No event of the analysis loop is a download. -/
theorem analysisEvents_noDownload :
    ∀ (rs : List BenchRecord) (e : BEv), e ∈ analysisEvents rs →
      isDownload e = false := by
  intro rs
  induction rs with
  | nil => intro e he; exact absurd he (List.not_mem_nil e)
  | cons r rest ih =>
    intro e he
    simp only [analysisEvents] at he
    rcases List.mem_append.mp he with h1 | h1
    · cases hp : get_paper_time (r.num_images : Int) <;> rw [hp] at h1
      · exact absurd h1 (List.not_mem_nil e)
      · simp only [List.mem_singleton] at h1
        subst h1; rfl
    · exact ih e h1

/-- C7: with CUDA available, the benchmark's trace splits as a prefix
with no download and no timing or memory measurement, then the single
download of the fixed URL `_URL`, then a suffix with no further
download — so the checkpoint is downloaded exactly once, from a constant
URL independent of the environment, before any measurement. -/
theorem C7_download_once_fixed_url_before_measurement :
    ∀ env : BenchEnv, env.cudaAvailable = true →
      ∃ pre post, (benchmark_inference env).1 = pre ++ BEv.download modelURL :: post
        ∧ (∀ e ∈ pre, isDownload e = false ∧ isMeasurement e = false)
        ∧ (∀ e ∈ post, isDownload e = false) := by
  intro env hc
  have hpre : ∀ e ∈ [BEv.printDevice "cuda", BEv.printGPU, BEv.printCapability,
      BEv.printDtype (decide (env.capability ≥ 8)), BEv.printLoadingModel,
      BEv.constructModel], isDownload e = false ∧ isMeasurement e = false := by
    intro e he
    simp only [List.mem_cons, List.not_mem_nil, or_false] at he
    rcases he with rfl | rfl | rfl | rfl | rfl | rfl <;> exact ⟨rfl, rfl⟩
  by_cases hd : env.imageDirExists = true
  · refine ⟨[BEv.printDevice "cuda", BEv.printGPU, BEv.printCapability,
      BEv.printDtype (decide (env.capability ≥ 8)), BEv.printLoadingModel,
      BEv.constructModel],
      BEv.printModelLoaded :: (benchLoop env test_cases).1
        ++ BEv.printSummary (benchLoop env test_cases).2
          :: analysisEvents (benchLoop env test_cases).2, ?_, hpre, ?_⟩
    · simp [benchmark_inference, hc, hd]
    · intro e he
      simp only [List.mem_cons, List.mem_append] at he
      rcases he with (rfl | he) | (rfl | he)
      · rfl
      · exact benchLoop_noDownload env test_cases e he
      · rfl
      · exact analysisEvents_noDownload _ e he
  · refine ⟨[BEv.printDevice "cuda", BEv.printGPU, BEv.printCapability,
      BEv.printDtype (decide (env.capability ≥ 8)), BEv.printLoadingModel,
      BEv.constructModel],
      [BEv.printModelLoaded, BEv.printDirMissing], ?_, hpre, ?_⟩
    · simp [benchmark_inference, hc, hd]
    · intro e he
      simp only [List.mem_cons, List.not_mem_nil, or_false] at he
      rcases he with rfl | rfl <;> rfl

/-- Witness for C7 at a concrete environment. -/
theorem C7_witness :
    benchEnvW.cudaAvailable = true ∧
      ∃ pre post,
        (benchmark_inference benchEnvW).1 = pre ++ BEv.download modelURL :: post
        ∧ (∀ e ∈ pre, isDownload e = false ∧ isMeasurement e = false)
        ∧ (∀ e ∈ post, isDownload e = false) :=
  ⟨rfl, C7_download_once_fixed_url_before_measurement benchEnvW rfl⟩

/-- Python string comparison is asymmetric. -/
theorem pyCharsLt_asymm : ∀ as bs : List Char,
    pyCharsLt as bs = true → pyCharsLt bs as = false := by
  intro as
  induction as with
  | nil =>
    intro bs h
    cases bs with
    | nil => simp [pyCharsLt] at h
    | cons b bs => rfl
  | cons a as ih =>
    intro bs h
    cases bs with
    | nil => simp [pyCharsLt] at h
    | cons b bs =>
      simp only [pyCharsLt, Bool.or_eq_true, Bool.and_eq_true,
        decide_eq_true_eq, beq_iff_eq] at h
      rcases h with h | ⟨rfl, h2⟩
      · have h1 : ¬ b < a := lt_asymm h
        have h3 : ¬ b = a := fun e => absurd h (by rw [e]; exact lt_irrefl a)
        simp [pyCharsLt, h1, h3]
      · simp [pyCharsLt, lt_irrefl, ih bs h2]

/-- If `x >= y` fails under Python's string order then `y >= x` holds. -/
theorem pyStrGe_flip {a b : String} (h : pyStrGe a b = false) :
    pyStrGe b a = true := by
  cases hx : pyStrLt a b with
  | false => rw [pyStrGe, hx] at h; simp at h
  | true =>
    rw [pyStrLt] at hx
    simp [pyStrGe, pyStrLt, pyCharsLt_asymm _ _ hx]

/-- Stable descending insertion inserts, up to permutation. -/
theorem insertDesc_perm (x : String) :
    ∀ l, (insertDesc x l).Perm (x :: l) := by
  intro l
  induction l with
  | nil => exact List.Perm.refl _
  | cons y ys ih =>
    rw [insertDesc]
    split
    · exact List.Perm.refl _
    · exact (ih.cons y).trans (List.Perm.swap x y ys)

/-- `sort(reverse=True)` permutes its input. -/
theorem sortDesc_perm : ∀ l, (sortDesc l).Perm l := by
  intro l
  induction l with
  | nil => exact List.Perm.refl _
  | cons x xs ih =>
    rw [sortDesc]
    exact (insertDesc_perm x (sortDesc xs)).trans (ih.cons x)

/-- Descending insertion preserves descending order. -/
theorem chain'_insertDesc (x : String) :
    ∀ l, l.Chain' DescR → (insertDesc x l).Chain' DescR := by
  intro l
  induction l with
  | nil => intro _; simp [insertDesc]
  | cons y ys ih =>
    intro h
    rw [insertDesc]
    split
    · rename_i hg
      exact List.chain'_cons.mpr ⟨hg, h⟩
    · rename_i hg
      have hg' : pyStrGe x y = false := by
        revert hg; cases pyStrGe x y <;> simp
      have hyx : DescR y x := pyStrGe_flip hg'
      rw [List.chain'_cons']
      refine ⟨?_, ih h.tail⟩
      intro z hz
      cases ys with
      | nil =>
        simp only [insertDesc, List.head?_cons, Option.mem_some_iff] at hz
        subst hz; exact hyx
      | cons w ws =>
        rw [insertDesc] at hz
        by_cases hw : pyStrGe x w = true
        · rw [if_pos hw] at hz
          simp only [List.head?_cons, Option.mem_some_iff] at hz
          subst hz; exact hyx
        · rw [if_neg hw] at hz
          simp only [List.head?_cons, Option.mem_some_iff] at hz
          subst hz
          exact (List.chain'_cons.mp h).1

/-- `sort(reverse=True)` sorts descending under Python's string order. -/
theorem sortDesc_chain' : ∀ l, (sortDesc l).Chain' DescR := by
  intro l
  induction l with
  | nil => exact List.chain'_nil
  | cons x xs ih => exact chain'_insertDesc x (sortDesc xs) ih

/-- The scan over the candidate directories returns the first match of
the first directory whose combined glob results are non-empty. -/
theorem searchDirs_result (g : String → List String) :
    ∀ l, (searchDirs g l).2 =
      (l.find? (fun d => !(g d).isEmpty)).bind (fun d => (g d).head?) := by
  intro l
  induction l with
  | nil => rfl
  | cons d rest ih =>
    cases hg : g d with
    | nil => simp [searchDirs, hg, List.find?_cons, ih]
    | cons f rest2 => simp [searchDirs, hg, List.find?_cons]

/-- Every directory the scan examines comes from the candidate list. -/
theorem searchDirs_globbed (g : String → List String) :
    ∀ l d, Ev.globbed d ∈ (searchDirs g l).1 → d ∈ l := by
  intro l
  induction l with
  | nil => intro d h; exact absurd h (List.not_mem_nil _)
  | cons d0 rest ih =>
    intro d h
    cases hg : g d0 with
    | nil =>
      simp only [searchDirs, hg, List.mem_cons, Ev.globbed.injEq] at h
      rcases h with h | h
      · exact h ▸ List.mem_cons_self d0 rest
      · exact List.mem_cons_of_mem _ (ih d h)
    | cons f rest2 =>
      simp only [searchDirs, hg, List.mem_cons, List.not_mem_nil,
        or_false, Ev.globbed.injEq] at h
      rcases h with h | h
      · exact h ▸ List.mem_cons_self d0 rest
      · exact absurd h (by simp)

/-- The scan never runs a subprocess command. -/
theorem searchDirs_no_cmd (g : String → List String) :
    ∀ l d i, Ev.cmdRun d i ∉ (searchDirs g l).1 := by
  intro l
  induction l with
  | nil => intro d i h; exact absurd h (List.not_mem_nil _)
  | cons d0 rest ih =>
    intro d i h
    cases hg : g d0
    · simp only [searchDirs, hg, List.mem_cons] at h
      rcases h with h | h
      · exact absurd h (by simp)
      · exact ih d i h
    · simp [searchDirs, hg] at h

/-- `analyze_video_properties` runs no extraction command. -/
theorem analyze_no_cmd (env : VideoEnv) (p : String) (d : String) (i : Nat) :
    Ev.cmdRun d i ∉ (analyze_video_properties env p).1 := by
  unfold analyze_video_properties
  cases hf : env.fileExists <;>
    cases hp1 : env.probe1 <;> cases hp2 : env.probe2 <;>
      simp [hf, hp1, hp2]

/-- `check_file_structure` runs no extraction command. -/
theorem cfs_no_cmd (content : Option (List Byte)) (d : String) (i : Nat) :
    Ev.cmdRun d i ∉ check_file_structure content := by
  cases content with
  | none => simp [check_file_structure]
  | some c =>
    by_cases hsig : (c.take 1024).take 3 == [0, 0, 0] <;>
      simp [check_file_structure, hsig]

/-- Any command event of one method iteration targets its directory. -/
theorem runStep_cmd_dir (env : FfmpegEnv) (dir : String) (fs : FS) (k : Nat)
    (d : String) (i : Nat)
    (h : Ev.cmdRun d i ∈ (runStep env dir fs k).1) : d = dir := by
  simp only [runStep] at h
  cases hs : env.status k with
  | completed code =>
    simp only [hs] at h
    by_cases hc : code = 0
    · rw [if_pos hc] at h
      split_ifs at h <;> simp at h <;> tauto
    · rw [if_neg hc] at h
      simp at h; tauto
  | timedOut => simp only [hs] at h; simp at h; tauto
  | errored => simp only [hs] at h; simp at h; tauto

/-- Any command event of the method loop targets its directory. -/
theorem runMethods_cmd_dir (env : FfmpegEnv) (dir : String) :
    ∀ (is : List Nat) (fs : FS) (d : String) (i : Nat),
      Ev.cmdRun d i ∈ (runMethods env dir is fs).1 → d = dir := by
  intro is
  induction is with
  | nil => intro fs d i h; exact absurd h (List.not_mem_nil _)
  | cons k rest ih =>
    intro fs d i h
    simp only [runMethods] at h
    rcases List.mem_append.mp h with h1 | h1
    · exact runStep_cmd_dir env dir fs k d i h1
    · exact ih _ d i h1

/-- Any command event of `test_ffmpeg_methods` targets its directory. -/
theorem tfm_cmd_dir (env : FfmpegEnv) (dir : String) (fs : FS)
    (d : String) (i : Nat)
    (h : Ev.cmdRun d i ∈ (test_ffmpeg_methods env dir fs).1) : d = dir := by
  simp only [test_ffmpeg_methods] at h
  rcases List.mem_append.mp h with h1 | h1
  · exact runMethods_cmd_dir env dir _ _ d i h1
  · split at h1 <;> simp at h1

/-- Any command event of the working-video test targets
`debug_working_output`. -/
theorem tww_cmd_dir (env : DebugEnv) (fs : FS) (d : String) (i : Nat)
    (h : Ev.cmdRun d i ∈ (test_with_working_video env fs).1) :
    d = workingOutputDir := by
  unfold test_with_working_video at h
  cases hw : env.workingVideoExists <;> simp only [hw, Bool.false_eq_true,
    if_false, if_true] at h
  · simp at h
  · rcases List.mem_cons.mp h with h | h
    · exact absurd h (by simp)
    rcases List.mem_append.mp h with h | h
    · rcases List.mem_append.mp h with h | h
      · rcases List.mem_append.mp h with h | h
        · exact absurd h (analyze_no_cmd env.working workingVideoPath d i)
        · exact absurd h (cfs_no_cmd env.working.content d i)
      · exact tfm_cmd_dir _ _ _ d i h
    · by_cases he : (test_ffmpeg_methods env.working.ffmpeg
          workingOutputDir fs).2.2.isEmpty = true
      · rw [if_pos he] at h; simp at h
      · rw [if_neg he] at h; simp at h

/-- C10: the upload search considers exactly the entries of the current
directory that start with `input_images_`, descending-sorted (the sorted
list is a permutation of the filtered entries, in descending Python
string order), examines at most the first three, returns the first
`*.MP4`-before-`*.mp4` glob match of the first of those three with any
match, and when none of the three has a match, `main` runs no extraction
command on `debug_problem_output` and returns normally. -/
theorem C10_upload_search (env : DebugEnv) (fs : FS) :
    (sortDesc (env.listdir.filter
        (fun d => pyStartsWith d inputImagesMarker))).Perm
      (env.listdir.filter (fun d => pyStartsWith d inputImagesMarker))
    ∧ (sortDesc (env.listdir.filter
        (fun d => pyStartsWith d inputImagesMarker))).Chain' DescR
    ∧ (findUploadedVideo env).2 =
        (((sortDesc (env.listdir.filter
            (fun d => pyStartsWith d inputImagesMarker))).take 3).find?
          (fun d => !(env.globMP4 d ++ env.globmp4 d).isEmpty)).bind
          (fun d => (env.globMP4 d ++ env.globmp4 d).head?)
    ∧ (∀ d, Ev.globbed d ∈ (findUploadedVideo env).1 →
        d ∈ (sortDesc (env.listdir.filter
          (fun d => pyStartsWith d inputImagesMarker))).take 3)
    ∧ ((findUploadedVideo env).2 = none →
        (∀ i, Ev.cmdRun problemOutputDir i ∉ (DebugVideo.main env fs).1)
        ∧ (DebugVideo.main env fs).2.2 = .normal) := by
  refine ⟨sortDesc_perm _, sortDesc_chain' _, ?_, ?_, ?_⟩
  · exact searchDirs_result _ _
  · intro d h
    exact searchDirs_globbed _ _ d h
  · intro hn
    refine ⟨?_, main_normal env fs⟩
    intro i hmem
    simp only [DebugVideo.main] at hmem
    by_cases hw2 : (!(test_with_working_video env fs).2.2) = true
    · rw [if_pos hw2] at hmem
      rcases List.mem_cons.mp hmem with h | h
      · exact absurd h (by simp)
      rcases List.mem_append.mp h with h | h
      · exact absurd (tww_cmd_dir env fs problemOutputDir i h) (by decide)
      · simp at h
    · rw [if_neg hw2] at hmem
      simp only [hn] at hmem
      rcases List.mem_cons.mp hmem with h | h
      · exact absurd h (by simp)
      rcases List.mem_append.mp h with h | h
      · rcases List.mem_append.mp h with h | h
        · exact absurd (tww_cmd_dir env fs problemOutputDir i h) (by decide)
        · simp only [findUploadedVideo] at h
          exact absurd h (searchDirs_no_cmd _ _ problemOutputDir i)
      · simp at h

/-- Witness for C10 at a concrete environment whose globs are empty. -/
theorem C10_witness :
    (findUploadedVideo debugEnvW).2 = none
    ∧ (∀ i, Ev.cmdRun problemOutputDir i ∉
        (DebugVideo.main debugEnvW (fun _ => none)).1)
    ∧ (DebugVideo.main debugEnvW (fun _ => none)).2.2 = .normal := by
  have h : (findUploadedVideo debugEnvW).2 = none := by decide
  have := (C10_upload_search debugEnvW (fun _ => none)).2.2.2.2 h
  exact ⟨h, this.1, this.2⟩

/-- Witness for C4 at a concrete environment. -/
theorem C4_witness :
    benchEnvW.cudaAvailable = true ∧ benchEnvW.imageDirExists = true ∧
      (benchmark_inference benchEnvW).2.1 =
        (test_cases.filter (fun n => decide (n ≤ benchEnvW.numImages))).map
          (fun n => ⟨n, benchEnvW.loadTime n, avg3 (benchEnvW.inferTime n),
                     benchEnvW.memGB n⟩) :=
  ⟨rfl, rfl, (C4_benchmark_iterates_fixed_sizes benchEnvW rfl rfl).1⟩
